import Mathlib

/-!
Verification of the km-checker model-checking harness.

The state equivalence model is embedded from `src/state.rs`, the execution
engine from `src/runner.rs`.  External collaborators (Commander, Printer,
Test Port) are modelled as per-call oracle inputs; printing is modelled as a
list of emitted print events.
-/

namespace KmChecker

/-! ## Abstract state and equivalence wrappers (`src/state.rs`) -/

/-- The `AbstractState` trait: a `matches` equivalence check.
Serde support is irrelevant to the claims and is not modelled. -/
class AbstractState (S : Type) where
  «matches» : S → S → Bool

/-- `Unmatched<T>`: not-checked field wrapper. -/
structure Unmatched (T : Type) where
  val : T
deriving DecidableEq, Repr

/-- `Unmatched::matches` always returns true. -/
def Unmatched.«matches» (_a _b : Unmatched T) : Bool := true

instance : AbstractState (Unmatched T) := ⟨Unmatched.«matches»⟩

/-- `Value<T>`: common data type, checked for equality. -/
structure Value (T : Type) where
  val : T
deriving DecidableEq, Repr

/-- `Value::matches`: values match if they are equal (`self.0 == other.0`). -/
def Value.«matches» [DecidableEq T] (a b : Value T) : Bool := a.val == b.val

instance [DecidableEq T] : AbstractState (Value T) := ⟨Value.«matches»⟩

/-- `ValueList<T>`: ordered list of values. -/
structure ValueList (T : Type) where
  vals : List (Value T)
deriving DecidableEq, Repr

/-- `ValueList::matches`: false on length mismatch, otherwise all zipped
pairs must match. -/
def ValueList.«matches» [DecidableEq T] (a b : ValueList T) : Bool :=
  if a.vals.length != b.vals.length then false
  else (a.vals.zip b.vals).all fun p => p.1.«matches» p.2

instance [DecidableEq T] : AbstractState (ValueList T) := ⟨ValueList.«matches»⟩

/-- `ValueSet<T>`: unordered set of values. -/
structure ValueSet (T : Type) where
  vals : List (Value T)
deriving DecidableEq, Repr

/-- `ValueSet::matches`: false on length mismatch, otherwise
`any` over the first list of `any` over the second (`a.matches(b)`). -/
def ValueSet.«matches» [DecidableEq T] (a b : ValueSet T) : Bool :=
  if a.vals.length != b.vals.length then false
  else a.vals.any fun x => b.vals.any fun y => x.«matches» y

instance [DecidableEq T] : AbstractState (ValueSet T) := ⟨ValueSet.«matches»⟩

/-- `Ident<T>`: common identifier, not checked for equality. -/
structure Ident (T : Type) where
  val : T
deriving DecidableEq, Repr

/-- `Ident::matches`: a single identifier always matches. -/
def Ident.«matches» (_a _b : Ident T) : Bool := true

instance : AbstractState (Ident T) := ⟨Ident.«matches»⟩

/-- `map_ident`: build a map from each distinct raw identifier value to a
dense index (insertion order, `map.len()` at insertion time), then map every
element through it.  The `HashMap` is modelled as an association list; the
`unwrap` is modelled by `getD 0` (every element of the list is a key of the
map, see `lookup_map_of_mem`). -/
def map_ident [DecidableEq T] (list : List (Ident T)) : List Nat :=
  let map := list.foldl
    (fun m e => if (m.lookup e.val).isSome then m else m ++ [(e.val, m.length)])
    ([] : List (T × Nat))
  list.map fun e => ((map.lookup e.val).getD 0)

/-- `IdentList<T>`: ordered list of identifiers. -/
structure IdentList (T : Type) where
  vals : List (Ident T)
deriving DecidableEq, Repr

/-- `IdentList::matches`: false on length mismatch, otherwise the
`map_ident` images must be equal. -/
def IdentList.«matches» [DecidableEq T] (a b : IdentList T) : Bool :=
  if a.vals.length != b.vals.length then false
  else map_ident a.vals == map_ident b.vals

instance [DecidableEq T] : AbstractState (IdentList T) := ⟨IdentList.«matches»⟩

/-- `IdentSet<T>`: unordered set of identifiers. -/
structure IdentSet (T : Type) where
  vals : List (Ident T)
deriving DecidableEq, Repr

/-- Insert into a sorted list, keeping it sorted. -/
def insertSorted (x : Nat) : List Nat → List Nat
  | [] => [x]
  | y :: ys => if x ≤ y then x :: y :: ys else y :: insertSorted x ys

/-- `Vec::sort` on `Vec<usize>`, modelled as insertion sort (ascending). -/
def sortNat (l : List Nat) : List Nat := l.foldr insertSorted []

/-- `IdentSet::matches`: false on length mismatch, otherwise the sorted
`map_ident` images must be equal. -/
def IdentSet.«matches» [DecidableEq T] (a b : IdentSet T) : Bool :=
  if a.vals.length != b.vals.length then false
  else sortNat (map_ident a.vals) == sortNat (map_ident b.vals)

instance [DecidableEq T] : AbstractState (IdentSet T) := ⟨IdentSet.«matches»⟩

/-! ## Canonical relabeling as the spec words it -/

/-- The distinct raw values of a sequence, in order of first appearance. -/
def distinctInOrder [DecidableEq T] (l : List T) : List T :=
  l.foldl (fun acc x => if x ∈ acc then acc else acc ++ [x]) []

/-- Index of the first occurrence of `x` in a list (`0` when absent at the
end of the list, never reached on members). -/
def idxIn [DecidableEq T] : List T → T → Nat
  | [], _ => 0
  | y :: ys, x => if x = y then 0 else idxIn ys x + 1

/-- Canonical relabeling, following the spec's words: assign each distinct
value, in order of first appearance, a dense integer starting at 0, and
replace each element by its assigned integer. -/
def canonicalRelabeling [DecidableEq T] (l : List T) : List Nat :=
  l.map fun x => idxIn (distinctInOrder l) x

/-! ## Execution engine (`src/runner.rs`) -/

/-- `CheckLevel`: checking level of retv and state. -/
inductive CheckLevel where
  | none
  | relaxed
  | strict
deriving DecidableEq, Repr, BEq

/-- `ExecutionStep`: runner execution steps. -/
inductive ExecutionStep where
  | init
  | command
  | check
deriving DecidableEq, Repr, BEq

/-- Modelled from the spec (§7): the `Error` kinds of the crate's `error`
module, whose source file is not under `src/`.  `runner.rs` names
`ReturnValueMismatch` and `StateMismatch`; the spec adds command-not-found,
state-parse-error and transport errors. -/
inductive Error where
  | commandNotFound
  | stateParseError
  | returnValueMismatch
  | stateMismatch
  | transport
deriving DecidableEq, Repr, BEq

/-- Modelled from the spec: `AbstractState::update` (not under `src/`)
replaces the local state wholesale with the other state (overwrite, not
merge). -/
def AbstractState.update [AbstractState S] (_self other : S) : S := other

/-- The `Command` trait object: `execute` mutates the abstract state and
yields the return value; the rendering used for tracing is a string. -/
structure Command (S : Type) where
  execute : S → S × Int
  describe : String

/-- One print event emitted through the `Printer`; stands for one
`printer.print(...)` call in `runner.rs`. -/
inductive PrintEvent (S : Type) where
  | initialStateBanner
  | stateDump (s : S)
  | roundBanner (n : Nat)
  | commandDesc (d : String)
  | retvMismatch
  | retvExpectedGot (expected got : Int)
  | stateMismatchMsg
  | expectedLabel
  | gotLabel
deriving DecidableEq, Repr

/-- The `Runner`'s own mutable fields.  The owned `commander`, `printer`
and `test_port` collaborators are modelled as per-call oracle inputs
(`StepEnv`); the `step` field is named `execStep` because `step` is taken
by the method. -/
structure Runner (S : Type) where
  state : S
  round : Nat
  execStep : ExecutionStep
  retv : Int
deriving DecidableEq, Repr

/-- `Runner::new`: round 0, step Init, retv 0. -/
def Runner.new (state : S) : Runner S :=
  { state := state, round := 0, execStep := ExecutionStep.init, retv := 0 }

/-- The oracle responses of the external collaborators for one `step()`
call: `get_state` during Init, the Commander's command and the Test Port's
`send_command` result during Command, `get_retv` (infallible) and
`get_state` during Check. -/
structure StepEnv (S : Type) where
  getState : Except Error S
  cmdRes : Except Error (Command S)
  sendRes : Except Error Unit
  testRetv : Int
  testState : Except Error S

/-- `Runner::init`: get state from test port (propagating failure), update
self with it, print the initial-state banner and the state. -/
def Runner.init [AbstractState S] (rs : Runner S) (getState : Except Error S) :
    Runner S × List (PrintEvent S) × Except Error Unit :=
  match getState with
  | Except.error e => (rs, [], Except.error e)
  | Except.ok ts =>
      let s' := AbstractState.update rs.state ts
      ({ rs with state := s' },
       [PrintEvent.initialStateBanner, PrintEvent.stateDump s'],
       Except.ok ())

/-- `Runner::command`: print the round banner, increment the round counter,
get the command from the commander (propagating failure), print its
description, execute it on the local state recording the return value, and
return the test port's `send_command` result. -/
def Runner.command [AbstractState S] (rs : Runner S)
    (cmdRes : Except Error (Command S)) (sendRes : Except Error Unit) :
    Runner S × List (PrintEvent S) × Except Error Unit :=
  let out := [PrintEvent.roundBanner rs.round]
  let rs1 := { rs with round := rs.round + 1 }
  match cmdRes with
  | Except.error e => (rs1, out, Except.error e)
  | Except.ok c =>
      let out := out ++ [PrintEvent.commandDesc c.describe]
      let (s', r) := c.execute rs1.state
      let rs2 := { rs1 with state := s', retv := r }
      (rs2, out, sendRes)

/-- `Runner::check`: compare the test port's return value with the local one
under `retv_level` (report on mismatch; error when Strict), then get the
test port's state (propagating failure) and compare under `state_level`
(report on mismatch; error when Strict), and finally update the local state
with the retrieved state. -/
def Runner.check [AbstractState S] (rs : Runner S)
    (retvLevel stateLevel : CheckLevel)
    (testRetv : Int) (testState : Except Error S) :
    Runner S × List (PrintEvent S) × Except Error Unit :=
  let retvCond := retvLevel ≠ CheckLevel.none ∧ testRetv ≠ rs.retv
  let out1 :=
    if retvCond then
      [PrintEvent.retvMismatch, PrintEvent.retvExpectedGot rs.retv testRetv]
    else []
  if retvCond ∧ retvLevel = CheckLevel.strict then
    (rs, out1, Except.error Error.returnValueMismatch)
  else
    match testState with
    | Except.error e => (rs, out1, Except.error e)
    | Except.ok ts =>
        let stateCond := stateLevel ≠ CheckLevel.none ∧ AbstractState.«matches» ts rs.state = false
        let out2 :=
          if stateCond then
            [PrintEvent.stateMismatchMsg, PrintEvent.expectedLabel,
             PrintEvent.stateDump ts, PrintEvent.gotLabel, PrintEvent.stateDump rs.state]
          else []
        if stateCond ∧ stateLevel = CheckLevel.strict then
          (rs, out1 ++ out2, Except.error Error.stateMismatch)
        else
          ({ rs with state := AbstractState.update rs.state ts },
           out1 ++ out2, Except.ok ())

/-- `Runner::step`: dispatch on the current execution step, run the phase
action, and advance the step marker only when the action succeeded
(`Init -> Command -> Check -> Command -> ...`). -/
def Runner.step [AbstractState S] (rs : Runner S) (env : StepEnv S)
    (retvLevel stateLevel : CheckLevel) :
    Runner S × List (PrintEvent S) × Except Error Unit :=
  match rs.execStep with
  | ExecutionStep.init =>
      let res := Runner.init rs env.getState
      match res.2.2 with
      | Except.ok _ => ({ res.1 with execStep := ExecutionStep.command }, res.2.1, Except.ok ())
      | Except.error e => (res.1, res.2.1, Except.error e)
  | ExecutionStep.command =>
      let res := Runner.command rs env.cmdRes env.sendRes
      match res.2.2 with
      | Except.ok _ => ({ res.1 with execStep := ExecutionStep.check }, res.2.1, Except.ok ())
      | Except.error e => (res.1, res.2.1, Except.error e)
  | ExecutionStep.check =>
      let res := Runner.check rs retvLevel stateLevel env.testRetv env.testState
      match res.2.2 with
      | Except.ok _ => ({ res.1 with execStep := ExecutionStep.command }, res.2.1, Except.ok ())
      | Except.error e => (res.1, res.2.1, Except.error e)

/-- The phase reached by one successful `step()` from a given phase. -/
def nextExecutionStep : ExecutionStep → ExecutionStep
  | ExecutionStep.init => ExecutionStep.command
  | ExecutionStep.command => ExecutionStep.check
  | ExecutionStep.check => ExecutionStep.command

/-- The association list pairing the elements of a list with consecutive
indices starting at `k`; the shape `map_ident`'s accumulated map takes. -/
def toAssoc [DecidableEq T] : List T → Nat → List (T × Nat)
  | [], _ => []
  | x :: xs, k => (x, k) :: toAssoc xs (k + 1)

/-! ## Theorems -/

theorem beq_symm_lawful [BEq α] [LawfulBEq α] (a b : α) : (a == b) = (b == a) := by
  rw [Bool.eq_iff_iff, beq_iff_eq, beq_iff_eq]
  exact eq_comm

theorem beq_symm_decEq [DecidableEq α] (a b : α) : (a == b) = (b == a) := by
  by_cases h : a = b
  · subst h; rfl
  · have h' : b ≠ a := fun hba => h hba.symm
    simp [h, h']

theorem bne_symm_decEq [DecidableEq α] (a b : α) : (a != b) = (b != a) := by
  simp [bne, beq_symm_decEq]

/-- C2: `IdentSet::matches` is not order-invariant: `[7,5,5]` is a
permutation of `[5,7,5]`, yet the two sets do not match (their sorted
canonical relabelings are `[0,0,1]` and `[0,1,1]`), while the spec's own
example `[5,7,5]` vs `[9,2,9]` does match. -/
theorem identSet_not_order_invariant :
    ([5, 7, 5] : List ℕ).Perm [7, 5, 5] ∧
    IdentSet.«matches» (⟨[⟨5⟩, ⟨7⟩, ⟨5⟩]⟩ : IdentSet ℕ) ⟨[⟨7⟩, ⟨5⟩, ⟨5⟩]⟩ = false ∧
    IdentSet.«matches» (⟨[⟨5⟩, ⟨7⟩, ⟨5⟩]⟩ : IdentSet ℕ) ⟨[⟨9⟩, ⟨2⟩, ⟨9⟩]⟩ = true := by
  refine ⟨by decide, by decide, by decide⟩

/-- C3 (counterexample): `ValueSet::matches` is not the documented
forall-exists check: `{1,3}` vs `{1,2}` matches even though not every
element of the first set matches some element of the second. -/
theorem valueSet_matches_not_forall_exists :
    ValueSet.«matches» (⟨[⟨1⟩, ⟨3⟩]⟩ : ValueSet ℕ) ⟨[⟨1⟩, ⟨2⟩]⟩ = true ∧
    ¬ (∀ x ∈ [Value.mk (1 : ℕ), ⟨3⟩], ∃ y ∈ [Value.mk (1 : ℕ), ⟨2⟩],
        Value.«matches» x y = true) := by
  refine ⟨by decide, by decide⟩

/-- C3 (amended): for equal-length sets, `ValueSet::matches` returns true
iff SOME element of the first set matches some element of the second; it
still incorrectly reports a match for `{1,1}` vs `{1,2}`. -/
theorem valueSet_matches_iff_exists [DecidableEq T] (a b : ValueSet T) :
    (ValueSet.«matches» a b = true ↔
      a.vals.length = b.vals.length ∧ ∃ x ∈ a.vals, ∃ y ∈ b.vals, x.val = y.val)
    ∧ ValueSet.«matches» (⟨[⟨1⟩, ⟨1⟩]⟩ : ValueSet ℕ) ⟨[⟨1⟩, ⟨2⟩]⟩ = true := by
  constructor
  · by_cases h : a.vals.length = b.vals.length
    · simp [ValueSet.«matches», Value.«matches», h, List.any_eq_true]
    · simp [ValueSet.«matches», h, bne_iff_ne]
  · decide

/-- C4: reflexivity of `matches` fails on the code: the empty `ValueSet`
does not match a structurally identical copy of itself (the outer `any`
over an empty list is `false`). -/
theorem valueSet_empty_not_reflexive :
    ValueSet.«matches» (⟨[]⟩ : ValueSet ℕ) ⟨[]⟩ = false := by decide

/-- C9: for every collection wrapper kind, `matches` returns false whenever
the two collections have different lengths. -/
theorem collection_matches_length_mismatch [DecidableEq T]
    (va vb : ValueList T) (sa sb : ValueSet T)
    (ia ib : IdentList T) (ja jb : IdentSet T)
    (hv : va.vals.length ≠ vb.vals.length)
    (hs : sa.vals.length ≠ sb.vals.length)
    (hi : ia.vals.length ≠ ib.vals.length)
    (hj : ja.vals.length ≠ jb.vals.length) :
    ValueList.«matches» va vb = false ∧
    ValueSet.«matches» sa sb = false ∧
    IdentList.«matches» ia ib = false ∧
    IdentSet.«matches» ja jb = false := by
  refine ⟨?_, ?_, ?_, ?_⟩ <;>
    simp [ValueList.«matches», ValueSet.«matches», IdentList.«matches»,
      IdentSet.«matches», bne_iff_ne, hv, hs, hi, hj]

/-- C9 witness: concrete collections of lengths 1 and 2. -/
theorem collection_matches_length_mismatch_witness :
    ((1 : ℕ) ≠ 2) ∧
    ValueList.«matches» (⟨[⟨0⟩]⟩ : ValueList ℕ) ⟨[⟨0⟩, ⟨0⟩]⟩ = false ∧
    ValueSet.«matches» (⟨[⟨0⟩]⟩ : ValueSet ℕ) ⟨[⟨0⟩, ⟨0⟩]⟩ = false ∧
    IdentList.«matches» (⟨[⟨0⟩]⟩ : IdentList ℕ) ⟨[⟨0⟩, ⟨0⟩]⟩ = false ∧
    IdentSet.«matches» (⟨[⟨0⟩]⟩ : IdentSet ℕ) ⟨[⟨0⟩, ⟨0⟩]⟩ = false :=
  ⟨by decide,
    collection_matches_length_mismatch
      (⟨[⟨0⟩]⟩ : ValueList ℕ) ⟨[⟨0⟩, ⟨0⟩]⟩ (⟨[⟨0⟩]⟩ : ValueSet ℕ) ⟨[⟨0⟩, ⟨0⟩]⟩
      (⟨[⟨0⟩]⟩ : IdentList ℕ) ⟨[⟨0⟩, ⟨0⟩]⟩ (⟨[⟨0⟩]⟩ : IdentSet ℕ) ⟨[⟨0⟩, ⟨0⟩]⟩
      (by decide) (by decide) (by decide) (by decide)⟩

theorem zip_all_matches_symm [DecidableEq T] :
    ∀ (xs ys : List (Value T)),
      ((xs.zip ys).all fun p => p.1.«matches» p.2) =
      ((ys.zip xs).all fun p => p.1.«matches» p.2)
  | [], [] => rfl
  | [], _ :: _ => rfl
  | _ :: _, [] => rfl
  | x :: xs, y :: ys => by
    simp only [List.zip_cons_cons, List.all_cons]
    rw [zip_all_matches_symm xs ys, Value.«matches», Value.«matches»,
      beq_symm_decEq]

theorem any_any_matches_symm [DecidableEq T] (xs ys : List (Value T)) :
    (xs.any fun x => ys.any fun y => x.«matches» y) =
    (ys.any fun y => xs.any fun x => y.«matches» x) := by
  rw [Bool.eq_iff_iff]
  simp only [List.any_eq_true, Value.«matches», beq_iff_eq]
  constructor
  · rintro ⟨x, hx, y, hy, h⟩; exact ⟨y, hy, x, hx, h.symm⟩
  · rintro ⟨y, hy, x, hx, h⟩; exact ⟨x, hx, y, hy, h.symm⟩

/-- C10: every wrapper's `matches` is symmetric. -/
theorem matches_symm [DecidableEq T]
    (u v : Unmatched T) (a b : Value T) (la lb : ValueList T)
    (sa sb : ValueSet T) (ia ib : IdentList T) (ja jb : IdentSet T) :
    Unmatched.«matches» u v = Unmatched.«matches» v u ∧
    Value.«matches» a b = Value.«matches» b a ∧
    ValueList.«matches» la lb = ValueList.«matches» lb la ∧
    ValueSet.«matches» sa sb = ValueSet.«matches» sb sa ∧
    IdentList.«matches» ia ib = IdentList.«matches» ib ia ∧
    IdentSet.«matches» ja jb = IdentSet.«matches» jb ja := by
  refine ⟨rfl, beq_symm_decEq a.val b.val, ?_, ?_, ?_, ?_⟩
  · by_cases h : la.vals.length = lb.vals.length
    · simp [ValueList.«matches», h, zip_all_matches_symm]
    · have h' : lb.vals.length ≠ la.vals.length := fun hh => h hh.symm
      simp [ValueList.«matches», bne_iff_ne, h, h']
  · by_cases h : sa.vals.length = sb.vals.length
    · simp [ValueSet.«matches», h, any_any_matches_symm]
    · have h' : sb.vals.length ≠ sa.vals.length := fun hh => h hh.symm
      simp [ValueSet.«matches», bne_iff_ne, h, h']
  · by_cases h : ia.vals.length = ib.vals.length
    · simp only [IdentList.«matches», h, bne_self_eq_false, if_neg Bool.false_ne_true,
        Bool.false_eq_true, if_false]
      rw [beq_symm_lawful]
    · have h' : ib.vals.length ≠ ia.vals.length := fun hh => h hh.symm
      simp [IdentList.«matches», bne_iff_ne, h, h']
  · by_cases h : ja.vals.length = jb.vals.length
    · simp only [IdentSet.«matches», h, bne_self_eq_false, Bool.false_eq_true, if_false]
      rw [beq_symm_lawful]
    · have h' : jb.vals.length ≠ ja.vals.length := fun hh => h hh.symm
      simp [IdentSet.«matches», bne_iff_ne, h, h']

theorem init_preserves [AbstractState S] (rs : Runner S) (g : Except Error S) :
    (Runner.init rs g).1.execStep = rs.execStep ∧
    (Runner.init rs g).1.round = rs.round := by
  cases g <;> exact ⟨rfl, rfl⟩

theorem command_preserves [AbstractState S] (rs : Runner S)
    (c : Except Error (Command S)) (sn : Except Error Unit) :
    (Runner.command rs c sn).1.execStep = rs.execStep ∧
    (Runner.command rs c sn).1.round = rs.round + 1 := by
  cases c <;> exact ⟨rfl, rfl⟩

theorem check_preserves [AbstractState S] (rs : Runner S) (rl sl : CheckLevel)
    (tr : Int) (tse : Except Error S) :
    (Runner.check rs rl sl tr tse).1.execStep = rs.execStep ∧
    (Runner.check rs rl sl tr tse).1.round = rs.round ∧
    (Runner.check rs rl sl tr tse).1.retv = rs.retv := by
  simp only [Runner.check]
  split
  · exact ⟨rfl, rfl, rfl⟩
  · split
    · exact ⟨rfl, rfl, rfl⟩
    · split
      · exact ⟨rfl, rfl, rfl⟩
      · exact ⟨rfl, rfl, rfl⟩

/-- C7: a successful `step()` performs exactly the one transition of the
cycle `Init -> Command -> Check -> Command -> ...`, and a failing `step()`
leaves the phase marker unchanged. -/
theorem step_phase_transition [AbstractState S] (rs : Runner S) (env : StepEnv S)
    (rl sl : CheckLevel) :
    ((Runner.step rs env rl sl).2.2 = Except.ok () →
      (Runner.step rs env rl sl).1.execStep = nextExecutionStep rs.execStep)
    ∧ ∀ e : Error, (Runner.step rs env rl sl).2.2 = Except.error e →
      (Runner.step rs env rl sl).1.execStep = rs.execStep := by
  obtain ⟨st, rd, es, rv⟩ := rs
  cases es
  case init =>
    cases h : (Runner.init (⟨st, rd, ExecutionStep.init, rv⟩ : Runner S) env.getState).2.2
    all_goals
      constructor
      · intro hok
        simp only [Runner.step, nextExecutionStep, h] at hok ⊢
        try first
          | rfl
          | cases hok
      · intro e he
        simp only [Runner.step, h] at he ⊢
        first
          | exact (init_preserves _ env.getState).1
          | cases he
  case command =>
    cases h : (Runner.command (⟨st, rd, ExecutionStep.command, rv⟩ : Runner S)
        env.cmdRes env.sendRes).2.2
    all_goals
      constructor
      · intro hok
        simp only [Runner.step, nextExecutionStep, h] at hok ⊢
        try first
          | rfl
          | cases hok
      · intro e he
        simp only [Runner.step, h] at he ⊢
        first
          | exact (command_preserves _ env.cmdRes env.sendRes).1
          | cases he
  case check =>
    cases h : (Runner.check (⟨st, rd, ExecutionStep.check, rv⟩ : Runner S)
        rl sl env.testRetv env.testState).2.2
    all_goals
      constructor
      · intro hok
        simp only [Runner.step, nextExecutionStep, h] at hok ⊢
        try first
          | rfl
          | cases hok
      · intro e he
        simp only [Runner.step, h] at he ⊢
        first
          | exact (check_preserves _ rl sl env.testRetv env.testState).1
          | cases he

/-- C7 witness: a Check-phase step that succeeds moves the marker to
Command, and an Init-phase step whose `get_state` fails leaves it at Init. -/
theorem step_phase_transition_witness :
    (Runner.step (⟨⟨0⟩, 0, ExecutionStep.check, 0⟩ : Runner (Value ℕ))
        ⟨Except.ok ⟨0⟩, Except.error Error.commandNotFound, Except.ok (), 0, Except.ok ⟨0⟩⟩
        CheckLevel.strict CheckLevel.strict).1.execStep = ExecutionStep.command ∧
    (Runner.step (⟨⟨0⟩, 0, ExecutionStep.init, 0⟩ : Runner (Value ℕ))
        ⟨Except.error Error.stateParseError, Except.error Error.commandNotFound,
         Except.ok (), 0, Except.ok ⟨0⟩⟩
        CheckLevel.strict CheckLevel.strict).1.execStep = ExecutionStep.init :=
  ⟨(step_phase_transition (⟨⟨0⟩, 0, ExecutionStep.check, 0⟩ : Runner (Value ℕ))
      ⟨Except.ok ⟨0⟩, Except.error Error.commandNotFound, Except.ok (), 0, Except.ok ⟨0⟩⟩
      CheckLevel.strict CheckLevel.strict).1 rfl,
   (step_phase_transition (⟨⟨0⟩, 0, ExecutionStep.init, 0⟩ : Runner (Value ℕ))
      ⟨Except.error Error.stateParseError, Except.error Error.commandNotFound,
       Except.ok (), 0, Except.ok ⟨0⟩⟩
      CheckLevel.strict CheckLevel.strict).2 Error.stateParseError rfl⟩

/-- The round counter after one `step()`: incremented exactly in the
Command phase (whether or not that phase fails), unchanged elsewhere. -/
theorem step_round [AbstractState S] (rs : Runner S) (env : StepEnv S)
    (rl sl : CheckLevel) :
    (Runner.step rs env rl sl).1.round =
      if rs.execStep = ExecutionStep.command then rs.round + 1 else rs.round := by
  obtain ⟨st, rd, es, rv⟩ := rs
  cases es
  case init =>
    cases h : (Runner.init (⟨st, rd, ExecutionStep.init, rv⟩ : Runner S) env.getState).2.2
    all_goals
      simp only [Runner.step, h]
      simpa using (init_preserves (⟨st, rd, ExecutionStep.init, rv⟩ : Runner S) env.getState).2
  case command =>
    cases h : (Runner.command (⟨st, rd, ExecutionStep.command, rv⟩ : Runner S)
        env.cmdRes env.sendRes).2.2
    all_goals
      simp only [Runner.step, h]
      simpa using
        (command_preserves (⟨st, rd, ExecutionStep.command, rv⟩ : Runner S)
          env.cmdRes env.sendRes).2
  case check =>
    cases h : (Runner.check (⟨st, rd, ExecutionStep.check, rv⟩ : Runner S)
        rl sl env.testRetv env.testState).2.2
    all_goals
      simp only [Runner.step, h]
      simpa using
        (check_preserves (⟨st, rd, ExecutionStep.check, rv⟩ : Runner S)
          rl sl env.testRetv env.testState).2.1

/-- C8 (counterexample): a Command phase whose Commander fails still
increments the round counter, although no command was issued. -/
theorem round_incremented_without_command_cex :
    (⟨⟨0⟩, 0, ExecutionStep.command, 0⟩ : Runner (Value ℕ)).round = 0 ∧
    (Runner.step (⟨⟨0⟩, 0, ExecutionStep.command, 0⟩ : Runner (Value ℕ))
        ⟨Except.ok ⟨0⟩, Except.error Error.commandNotFound, Except.ok (), 0, Except.ok ⟨0⟩⟩
        CheckLevel.strict CheckLevel.strict).2.2 = Except.error Error.commandNotFound ∧
    (Runner.step (⟨⟨0⟩, 0, ExecutionStep.command, 0⟩ : Runner (Value ℕ))
        ⟨Except.ok ⟨0⟩, Except.error Error.commandNotFound, Except.ok (), 0, Except.ok ⟨0⟩⟩
        CheckLevel.strict CheckLevel.strict).1.round = 1 :=
  ⟨rfl, rfl, rfl⟩

/-- C8 (amended): the round counter starts at 0 and is monotonic; it is
incremented exactly once at the start of every Command phase — before the
command is requested — so a failed Command phase also consumes an
increment; Init and Check phases leave it unchanged. -/
theorem round_counter [AbstractState S] (s : S) (rs : Runner S) (env : StepEnv S)
    (rl sl : CheckLevel) :
    (Runner.new s).round = 0
    ∧ (rs.execStep = ExecutionStep.command →
        (Runner.step rs env rl sl).1.round = rs.round + 1)
    ∧ (rs.execStep ≠ ExecutionStep.command →
        (Runner.step rs env rl sl).1.round = rs.round)
    ∧ rs.round ≤ (Runner.step rs env rl sl).1.round := by
  refine ⟨rfl, ?_, ?_, ?_⟩
  · intro h
    rw [step_round, if_pos h]
  · intro h
    rw [step_round, if_neg h]
  · rw [step_round]
    split
    · exact Nat.le_succ _
    · exact Nat.le_refl _

/-- C8 amended witness: at a concrete failed Command phase the round goes
from 0 to 1, and at a concrete Check phase it is unchanged. -/
theorem round_counter_witness :
    (Runner.step (⟨⟨0⟩, 0, ExecutionStep.command, 0⟩ : Runner (Value ℕ))
        ⟨Except.ok ⟨0⟩, Except.error Error.commandNotFound, Except.ok (), 0, Except.ok ⟨0⟩⟩
        CheckLevel.strict CheckLevel.strict).1.round = 0 + 1 ∧
    (Runner.step (⟨⟨7⟩, 3, ExecutionStep.check, 0⟩ : Runner (Value ℕ))
        ⟨Except.ok ⟨7⟩, Except.error Error.commandNotFound, Except.ok (), 0, Except.ok ⟨7⟩⟩
        CheckLevel.strict CheckLevel.strict).1.round = 3 :=
  ⟨(round_counter (⟨0⟩ : Value ℕ) (⟨⟨0⟩, 0, ExecutionStep.command, 0⟩ : Runner (Value ℕ))
      ⟨Except.ok ⟨0⟩, Except.error Error.commandNotFound, Except.ok (), 0, Except.ok ⟨0⟩⟩
      CheckLevel.strict CheckLevel.strict).2.1 rfl,
   (round_counter (⟨0⟩ : Value ℕ) (⟨⟨7⟩, 3, ExecutionStep.check, 0⟩ : Runner (Value ℕ))
      ⟨Except.ok ⟨7⟩, Except.error Error.commandNotFound, Except.ok (), 0, Except.ok ⟨7⟩⟩
      CheckLevel.strict CheckLevel.strict).2.2.1 (by decide)⟩

/-- C6 (counterexample): in a Check phase with a Strict state mismatch, the
local state is NOT replaced with the Test Port's retrieved state — the
error is returned before the resync. -/
theorem check_strict_mismatch_no_resync_cex :
    (Runner.check (⟨⟨0⟩, 0, ExecutionStep.check, 0⟩ : Runner (Value ℕ))
        CheckLevel.strict CheckLevel.strict 0 (Except.ok ⟨1⟩)).1.state = ⟨0⟩ ∧
    (Runner.check (⟨⟨0⟩, 0, ExecutionStep.check, 0⟩ : Runner (Value ℕ))
        CheckLevel.strict CheckLevel.strict 0 (Except.ok ⟨1⟩)).2.2
      = Except.error Error.stateMismatch ∧
    (⟨0⟩ : Value ℕ) ≠ ⟨1⟩ :=
  ⟨rfl, rfl, by decide⟩

/-- C6 (amended): the Check phase replaces the local state with the Test
Port's retrieved state exactly when it returns success; when it returns an
error (a Strict mismatch or a `get_state` failure) the old local state is
kept. -/
theorem check_resync_iff_ok [AbstractState S] (rs : Runner S) (rl sl : CheckLevel)
    (tr : Int) (tse : Except Error S) :
    (∀ ts : S, tse = Except.ok ts →
        (Runner.check rs rl sl tr tse).2.2 = Except.ok () →
        (Runner.check rs rl sl tr tse).1.state = ts)
    ∧ ∀ e : Error, (Runner.check rs rl sl tr tse).2.2 = Except.error e →
        (Runner.check rs rl sl tr tse).1.state = rs.state := by
  by_cases h1 : (rl ≠ CheckLevel.none ∧ tr ≠ rs.retv) ∧ rl = CheckLevel.strict
  · constructor
    · intro ts hts hok
      simp only [Runner.check, if_pos h1] at hok
      cases hok
    · intro e he
      simp only [Runner.check, if_pos h1]
  · cases tse with
    | error e0 =>
      constructor
      · intro ts hts
        cases hts
      · intro e he
        simp only [Runner.check, if_neg h1]
    | ok ts0 =>
      by_cases h2 : (sl ≠ CheckLevel.none ∧ AbstractState.«matches» ts0 rs.state = false)
          ∧ sl = CheckLevel.strict
      · constructor
        · intro ts hts hok
          simp only [Runner.check, if_neg h1, if_pos h2] at hok
          cases hok
        · intro e he
          simp only [Runner.check, if_neg h1, if_pos h2]
      · constructor
        · intro ts hts hok
          cases hts
          simp only [Runner.check, if_neg h1, if_neg h2]
          rfl
        · intro e he
          simp only [Runner.check, if_neg h1, if_neg h2] at he
          cases he

/-- C6 amended witness: a successful Relaxed-level Check resyncs to the
retrieved state, and the Strict-mismatch Check keeps the old state. -/
theorem check_resync_iff_ok_witness :
    (Runner.check (⟨⟨0⟩, 0, ExecutionStep.check, 0⟩ : Runner (Value ℕ))
        CheckLevel.relaxed CheckLevel.relaxed 0 (Except.ok ⟨1⟩)).1.state = ⟨1⟩ ∧
    (Runner.check (⟨⟨0⟩, 0, ExecutionStep.check, 0⟩ : Runner (Value ℕ))
        CheckLevel.strict CheckLevel.strict 0 (Except.ok ⟨1⟩)).1.state = ⟨0⟩ :=
  ⟨(check_resync_iff_ok (⟨⟨0⟩, 0, ExecutionStep.check, 0⟩ : Runner (Value ℕ))
      CheckLevel.relaxed CheckLevel.relaxed 0 (Except.ok ⟨1⟩)).1 ⟨1⟩ rfl rfl,
   (check_resync_iff_ok (⟨⟨0⟩, 0, ExecutionStep.check, 0⟩ : Runner (Value ℕ))
      CheckLevel.strict CheckLevel.strict 0 (Except.ok ⟨1⟩)).2 Error.stateMismatch rfl⟩

/-- C5: check-level gating in a Check-phase `step()`, at a present
return-value mismatch (`tr ≠ rs.retv`) and a present state mismatch
(`matches` is false), independently per level: with None/None nothing is
reported and the step succeeds; Relaxed reports the mismatch but the step
still succeeds; Strict reports it and the step fails with the
corresponding mismatch error. -/
theorem check_level_gating [AbstractState S] (rs : Runner S) (g : Except Error S)
    (c : Except Error (Command S)) (sn : Except Error Unit) (tr : Int) (ts : S)
    (hstep : rs.execStep = ExecutionStep.check)
    (hr : tr ≠ rs.retv)
    (hs : AbstractState.«matches» ts rs.state = false) :
    ((Runner.step rs ⟨g, c, sn, tr, Except.ok ts⟩
        CheckLevel.none CheckLevel.none).2.2 = Except.ok () ∧
      (Runner.step rs ⟨g, c, sn, tr, Except.ok ts⟩
        CheckLevel.none CheckLevel.none).2.1 = [])
    ∧ ((Runner.step rs ⟨g, c, sn, tr, Except.ok ts⟩
        CheckLevel.relaxed CheckLevel.none).2.2 = Except.ok () ∧
      PrintEvent.retvMismatch ∈ (Runner.step rs ⟨g, c, sn, tr, Except.ok ts⟩
        CheckLevel.relaxed CheckLevel.none).2.1 ∧
      PrintEvent.stateMismatchMsg ∉ (Runner.step rs ⟨g, c, sn, tr, Except.ok ts⟩
        CheckLevel.relaxed CheckLevel.none).2.1)
    ∧ ((Runner.step rs ⟨g, c, sn, tr, Except.ok ts⟩
        CheckLevel.strict CheckLevel.none).2.2 = Except.error Error.returnValueMismatch ∧
      PrintEvent.retvMismatch ∈ (Runner.step rs ⟨g, c, sn, tr, Except.ok ts⟩
        CheckLevel.strict CheckLevel.none).2.1)
    ∧ ((Runner.step rs ⟨g, c, sn, tr, Except.ok ts⟩
        CheckLevel.none CheckLevel.relaxed).2.2 = Except.ok () ∧
      PrintEvent.stateMismatchMsg ∈ (Runner.step rs ⟨g, c, sn, tr, Except.ok ts⟩
        CheckLevel.none CheckLevel.relaxed).2.1 ∧
      PrintEvent.retvMismatch ∉ (Runner.step rs ⟨g, c, sn, tr, Except.ok ts⟩
        CheckLevel.none CheckLevel.relaxed).2.1)
    ∧ ((Runner.step rs ⟨g, c, sn, tr, Except.ok ts⟩
        CheckLevel.none CheckLevel.strict).2.2 = Except.error Error.stateMismatch ∧
      PrintEvent.stateMismatchMsg ∈ (Runner.step rs ⟨g, c, sn, tr, Except.ok ts⟩
        CheckLevel.none CheckLevel.strict).2.1) := by
  obtain ⟨st, rd, es, rv⟩ := rs
  simp only at hstep hr hs
  subst hstep
  refine ⟨⟨?_, ?_⟩, ⟨?_, ?_, ?_⟩, ⟨?_, ?_⟩, ⟨?_, ?_, ?_⟩, ⟨?_, ?_⟩⟩ <;>
  · simp [Runner.step, Runner.check, hr, hs]

/-- C5 witness: a concrete Check-phase runner with both mismatches
present, exercised at Strict return-value level. -/
theorem check_level_gating_witness :
    (1 : Int) ≠ 0 ∧
    AbstractState.«matches» (⟨1⟩ : Value ℕ) ⟨0⟩ = false ∧
    (Runner.step (⟨⟨0⟩, 0, ExecutionStep.check, 0⟩ : Runner (Value ℕ))
        ⟨Except.ok ⟨0⟩, Except.error Error.commandNotFound, Except.ok (), 1, Except.ok ⟨1⟩⟩
        CheckLevel.strict CheckLevel.none).2.2 = Except.error Error.returnValueMismatch :=
  ⟨by decide, by decide,
   (check_level_gating (⟨⟨0⟩, 0, ExecutionStep.check, 0⟩ : Runner (Value ℕ))
      (Except.ok ⟨0⟩) (Except.error Error.commandNotFound) (Except.ok ()) 1 ⟨1⟩
      rfl (by decide) (by decide)).2.2.1.1⟩

theorem lookup_toAssoc [DecidableEq T] (d : List T) (k : Nat) (x : T) :
    (toAssoc d k).lookup x = if x ∈ d then some (k + idxIn d x) else none := by
  induction d generalizing k with
  | nil => rfl
  | cons y ys ih =>
    by_cases h : x = y
    · subst h
      simp [toAssoc, List.lookup, idxIn]
    · have hb : (x == y) = false := by simp [h]
      have hidx : idxIn (y :: ys) x = idxIn ys x + 1 := by
        rw [idxIn, if_neg h]
      simp only [toAssoc, List.lookup, hb, ih, List.mem_cons, h, false_or, hidx]
      by_cases hm : x ∈ ys
      · rw [if_pos hm, if_pos hm]
        congr 1
        omega
      · rw [if_neg hm, if_neg hm]

theorem toAssoc_append [DecidableEq T] (d : List T) (x : T) (k : Nat) :
    toAssoc (d ++ [x]) k = toAssoc d k ++ [(x, k + d.length)] := by
  induction d generalizing k with
  | nil => simp [toAssoc]
  | cons y ys ih =>
    simp only [List.cons_append, toAssoc, List.append_eq, ih, List.length_cons]
    have harith : k + 1 + ys.length = k + (ys.length + 1) := by omega
    rw [harith]

theorem toAssoc_length [DecidableEq T] (d : List T) (k : Nat) :
    (toAssoc d k).length = d.length := by
  induction d generalizing k with
  | nil => rfl
  | cons y ys ih => simp [toAssoc, ih]

theorem build_foldl [DecidableEq T] (l : List (Ident T)) (d : List T) :
    l.foldl (fun m e => if (m.lookup e.val).isSome then m else m ++ [(e.val, m.length)])
      (toAssoc d 0)
    = toAssoc (l.foldl (fun acc e => if e.val ∈ acc then acc else acc ++ [e.val]) d) 0 := by
  induction l generalizing d with
  | nil => rfl
  | cons e l ih =>
    rw [List.foldl_cons, List.foldl_cons]
    by_cases h : e.val ∈ d
    · have hsome : ((toAssoc d 0).lookup e.val).isSome = true := by
        rw [lookup_toAssoc, if_pos h]
        rfl
      rw [if_pos hsome, if_pos h]
      exact ih d
    · have hnone : ((toAssoc d 0).lookup e.val).isSome = false := by
        rw [lookup_toAssoc, if_neg h]
        rfl
      rw [if_neg (by simp [hnone]), if_neg h]
      have hys : toAssoc d 0 ++ [(e.val, (toAssoc d 0).length)] = toAssoc (d ++ [e.val]) 0 := by
        rw [toAssoc_length, toAssoc_append, Nat.zero_add]
      rw [hys]
      exact ih (d ++ [e.val])

theorem mem_foldl_distinct [DecidableEq T] (l : List (Ident T)) (d : List T) (x : T) :
    (x ∈ l.foldl (fun acc e => if e.val ∈ acc then acc else acc ++ [e.val]) d ↔
      x ∈ d ∨ ∃ e ∈ l, e.val = x) := by
  induction l generalizing d with
  | nil => simp
  | cons e l ih =>
    rw [List.foldl_cons, ih]
    by_cases h : e.val ∈ d
    · rw [if_pos h]
      simp only [List.mem_cons]
      constructor
      · rintro (hx | ⟨a, ha, rfl⟩)
        · exact Or.inl hx
        · exact Or.inr ⟨a, Or.inr ha, rfl⟩
      · rintro (hx | ⟨a, rfl | ha, rfl⟩)
        · exact Or.inl hx
        · exact Or.inl h
        · exact Or.inr ⟨a, ha, rfl⟩
    · rw [if_neg h]
      simp only [List.mem_append, List.mem_cons, List.not_mem_nil, or_false]
      constructor
      · rintro ((hx | rfl) | ⟨a, ha, rfl⟩)
        · exact Or.inl hx
        · exact Or.inr ⟨e, Or.inl rfl, rfl⟩
        · exact Or.inr ⟨a, Or.inr ha, rfl⟩
      · rintro (hx | ⟨a, rfl | ha, rfl⟩)
        · exact Or.inl (Or.inl hx)
        · exact Or.inl (Or.inr rfl)
        · exact Or.inr ⟨a, ha, rfl⟩

/-- `map_ident` computes exactly the canonical relabeling the spec
describes, on the raw values of the identifier list. -/
theorem map_ident_eq_canonical [DecidableEq T] (l : List (Ident T)) :
    map_ident l = canonicalRelabeling (l.map Ident.val) := by
  simp only [map_ident, canonicalRelabeling, distinctInOrder, List.foldl_map,
    List.map_map]
  have hM : l.foldl
      (fun m e => if (m.lookup e.val).isSome then m else m ++ [(e.val, m.length)])
      ([] : List (T × Nat))
      = toAssoc (l.foldl (fun acc e => if e.val ∈ acc then acc else acc ++ [e.val]) []) 0 :=
    build_foldl l []
  rw [hM]
  apply List.map_congr_left
  intro e he
  have hmem : e.val ∈ l.foldl (fun acc e => if e.val ∈ acc then acc else acc ++ [e.val]) [] :=
    (mem_foldl_distinct l [] e.val).2 (Or.inr ⟨e, he, rfl⟩)
  rw [lookup_toAssoc, if_pos hmem]
  simp [Function.comp]

/-- C1: `IdentList::matches` returns true iff the two sequences have the
same length and equal canonical relabelings (each distinct raw value, in
order of first appearance, assigned a dense integer from 0, each element
replaced by its integer); with the spec's two examples. -/
theorem identList_matches_iff_canonical [DecidableEq T] (a b : IdentList T) :
    (IdentList.«matches» a b = true ↔
      a.vals.length = b.vals.length ∧
        canonicalRelabeling (a.vals.map Ident.val)
          = canonicalRelabeling (b.vals.map Ident.val))
    ∧ IdentList.«matches» (⟨[⟨5⟩, ⟨5⟩, ⟨7⟩]⟩ : IdentList ℕ) ⟨[⟨102⟩, ⟨102⟩, ⟨55⟩]⟩ = true
    ∧ IdentList.«matches» (⟨[⟨5⟩, ⟨5⟩, ⟨7⟩]⟩ : IdentList ℕ) ⟨[⟨5⟩, ⟨7⟩, ⟨5⟩]⟩ = false := by
  refine ⟨?_, by decide, by decide⟩
  by_cases h : a.vals.length = b.vals.length
  · simp [IdentList.«matches», bne_iff_ne, h, map_ident_eq_canonical]
  · simp [IdentList.«matches», bne_iff_ne, h]

end KmChecker
